import Mathlib

/-!
Verification development for the top-up / withdraw ledger server.

The repository contains three server variants:
* an in-memory engine (`src/unnamed/part_001`, first program): JS objects
  `balances`, `pendingOrders`, `processedOrders`, `withdrawHistory`;
* a Firestore engine with a crediting callback (`src/unnamed/part_000`):
  collections `transactions`, `users`, `withdraw_requests`;
* a Firestore webhook variant (`src/server.js`, first program) whose webhook
  only rewrites the transaction status and never touches any balance.

Each handler is embedded as a pure function from request data and state to
a new state and an HTTP-like response.  The sha512 hex digest used for
signature checking is kept abstract as a parameter `hash : String → String`;
every theorem about signatures is proved for an arbitrary such function, so
it holds in particular for the concrete sha512 hex digest.  JS numbers that
matter here are integers; the one non-integer JS value reachable in the
in-memory engine (`undefined - x = NaN` when debiting an absent balance key)
is modelled explicitly by the `JsBal.nan` constructor.
-/

namespace TopupLedger

/-- `MIN_TOPUP` configuration constant (default 10000, part_001 line 16). -/
def MIN_TOPUP : Int := 10000

/-- `MAX_WITHDRAW` configuration constant (default 10000000, part_001 line 17). -/
def MAX_WITHDRAW : Int := 10000000

/-- `DAILY_WITHDRAW_LIMIT` configuration constant (default 20000000, part_001 line 18). -/
def DAILY_WITHDRAW_LIMIT : Int := 20000000

/-- An HTTP-like response: status code and body message. -/
structure HttpRes where
  status : Nat
  msg : String
deriving DecidableEq, Repr

/-- Webhook notification body fields (all strings, as in the JSON body). -/
structure Notif where
  order_id : String
  status_code : String
  gross_amount : String
  signature_key : String
  transaction_status : String
deriving DecidableEq, Repr

/-- The string hashed for the signature check:
`order_id + status_code + gross_amount + serverKey` (string concatenation). -/
def sigInput (n : Notif) (key : String) : String :=
  n.order_id ++ n.status_code ++ n.gross_amount ++ key

/-- A JS value stored under `balances[userId]` in the in-memory engine:
the key may be absent (`missing`), hold `NaN` (after `undefined - amount`),
or hold an integer. -/
inductive JsBal where
  | missing : JsBal
  | nan : JsBal
  | val : Int → JsBal
deriving DecidableEq, Repr

/-- A pending order stored under `pendingOrders[orderId]` (part_001 lines 72-75). -/
structure Order where
  userId : String
  amount : Int
deriving DecidableEq, Repr

/-- State of the in-memory engine (part_001 lines 35-38). -/
structure MemState where
  balances : String → JsBal
  pendingOrders : String → Option Order
  processedOrders : String → Bool
  history : String → String → Int

/-- Initial in-memory state: all four maps empty. -/
def memInit : MemState where
  balances := fun _ => JsBal.missing
  pendingOrders := fun _ => none
  processedOrders := fun _ => false
  history := fun _ _ => 0

/-- Pointwise update of a string-keyed map. -/
def updMap {α : Type} (f : String → α) (k : String) (v : α) : String → α :=
  fun x => if x = k then v else f x

/-- `balances[userId] || 0`: the observable balance read used by every check
and by the balance endpoint (absent key and `NaN` both read as 0, and a
stored 0 also reads as 0). -/
def readBal (s : MemState) (u : String) : Int :=
  match s.balances u with
  | JsBal.val n => n
  | _ => 0

/-- `balances[userId] -= amount` in JS: on an integer value it subtracts; on
an absent key or `NaN` the result is `NaN`. -/
def jsDebit : JsBal → Int → JsBal
  | JsBal.val n, a => JsBal.val (n - a)
  | _, _ => JsBal.nan

/-- `POST /api/topup` of the in-memory engine (part_001 lines 52-87).
`orderId` stands for the freshly generated `"TOPUP-" + uuidv4()`, and
`gatewayOk` for whether `snap.createTransaction` succeeds (on failure the
handler answers 500 and stores nothing).  The result records the status and
whether the Order Creation Service was called. -/
def topupMem (orderId userId : String) (amount : Int) (gatewayOk : Bool)
    (s : MemState) : MemState × HttpRes × Bool :=
  if userId = "" ∨ amount = 0 ∨ amount < MIN_TOPUP then
    (s, ⟨400, "Invalid request"⟩, false)
  else if gatewayOk then
    ({ s with pendingOrders := updMap s.pendingOrders orderId (some ⟨userId, amount⟩) },
     ⟨200, "topup created"⟩, true)
  else
    (s, ⟨500, "Transaction error"⟩, true)

/-- `POST /api/midtrans/webhook` of the in-memory engine (part_001
lines 91-135): verify signature, short-circuit on an already processed
order id, and on a settlement/capture notification for a pending order
credit the balance, add the settlement marker, and drop the pending order. -/
def webhookMem (hash : String → String) (key : String) (n : Notif)
    (s : MemState) : MemState × HttpRes :=
  if n.signature_key ≠ hash (sigInput n key) then
    (s, ⟨403, "Invalid signature"⟩)
  else if s.processedOrders n.order_id then
    (s, ⟨200, "Already processed"⟩)
  else
    match s.pendingOrders n.order_id with
    | some o =>
      if n.transaction_status = "settlement" ∨ n.transaction_status = "capture" then
        ({ balances := updMap s.balances o.userId (JsBal.val (readBal s o.userId + o.amount)),
           pendingOrders := updMap s.pendingOrders n.order_id none,
           processedOrders := updMap s.processedOrders n.order_id true,
           history := s.history },
         ⟨200, "Webhook processed"⟩)
      else (s, ⟨200, "Webhook processed"⟩)
    | none => (s, ⟨200, "Webhook processed"⟩)

/-- `GET /api/balance/:userId` of the in-memory engine (part_001
lines 139-146): pure read of `balances[userId] || 0`. -/
def getBalanceMem (userId : String) (s : MemState) : MemState × Nat × Int :=
  (s, 200, readBal s userId)

/-- `POST /api/withdraw` of the in-memory engine (part_001 lines 150-190),
with `today` standing for `new Date().toISOString().split("T")[0]`.
The checks appear in source order: request validity, max withdraw, balance
sufficiency, daily limit; only then are balance and history mutated. -/
def withdrawMem (today userId : String) (amount : Int) (s : MemState) :
    MemState × HttpRes :=
  if userId = "" ∨ amount = 0 then
    (s, ⟨400, "Invalid request"⟩)
  else if MAX_WITHDRAW < amount then
    (s, ⟨400, "Exceeds max withdraw"⟩)
  else if readBal s userId < amount then
    (s, ⟨400, "Insufficient balance"⟩)
  else if DAILY_WITHDRAW_LIMIT < s.history userId today + amount then
    (s, ⟨400, "Daily limit exceeded"⟩)
  else
    ({ s with
         balances := updMap s.balances userId (jsDebit (s.balances userId) amount),
         history := fun u d =>
           if u = userId ∧ d = today then s.history userId today + amount
           else s.history u d },
     ⟨200, "Withdraw success (simulation)"⟩)

/-- A Firestore `transactions` document (part_000 lines 91-96,
server.js lines 99-105). -/
structure Trx where
  uid : String
  amount : Int
  status : String
deriving DecidableEq, Repr

/-- A withdrawal request document (part_000 lines 175-181), with `day` the
calendar date of its `created_at` timestamp and status `"pending"` at
creation. -/
structure WReq where
  uid : String
  amount : Int
  day : String
  status : String
deriving DecidableEq, Repr

/-- State of the Firestore engines: `transactions` and `users` documents
(a user document carries its balance; `data().balance || 0` makes a stored
0 and a stored 0 read alike) and the list of withdrawal request documents. -/
structure FsState where
  transactions : String → Option Trx
  users : String → Option Int
  withdrawReqs : List WReq

/-- `POST /api/payment` of the part_000 engine (lines 75-106): validate the
amount, call the gateway, store a pending transaction document keyed by the
fresh order id (`uid` comes from the verified token). -/
def paymentFs (orderId uid : String) (amount : Int) (gatewayOk : Bool)
    (s : FsState) : FsState × HttpRes × Bool :=
  if amount = 0 ∨ amount < 10000 then
    (s, ⟨400, "Minimal topup 10.000"⟩, false)
  else if gatewayOk then
    ({ s with transactions := updMap s.transactions orderId (some ⟨uid, amount, "pending"⟩) },
     ⟨200, "payment created"⟩, true)
  else
    (s, ⟨500, "gateway error"⟩, true)

/-- `POST /api/midtrans-callback` of the part_000 engine (lines 109-154):
verify signature; a missing transaction or one already `"success"` is a
benign no-op; on `"settlement"` a Firestore transaction credits the user
balance and marks the transaction `"success"` together.  A missing user
document makes `userDoc.data().balance` throw inside the transaction, so
nothing is applied and the handler answers 500. -/
def callbackFs (hash : String → String) (key : String) (n : Notif)
    (s : FsState) : FsState × HttpRes :=
  if n.signature_key ≠ hash (sigInput n key) then
    (s, ⟨403, "Invalid Signature"⟩)
  else
    match s.transactions n.order_id with
    | none => (s, ⟨200, "OK"⟩)
    | some t =>
      if t.status = "success" then (s, ⟨200, "OK"⟩)
      else if n.transaction_status = "settlement" then
        match s.users t.uid with
        | none => (s, ⟨500, "Error"⟩)
        | some b =>
          let tr := updMap s.transactions n.order_id (some { t with status := "success" })
          ({ s with users := updMap s.users t.uid (some (b + t.amount)),
                    transactions := tr },
           ⟨200, "OK"⟩)
      else (s, ⟨200, "OK"⟩)

/-- `POST /api/withdraw` of the part_000 engine (lines 157-192): reject a
non-positive amount, read the user balance (a missing user document throws,
caught as 500), reject on insufficiency, else debit the pre-read balance and
record a pending withdrawal request in one Firestore transaction. -/
def withdrawFs (today uid : String) (amount : Int) (s : FsState) :
    FsState × HttpRes :=
  if amount = 0 ∨ amount ≤ 0 then
    (s, ⟨400, "Invalid amount"⟩)
  else
    match s.users uid with
    | none => (s, ⟨500, "Withdraw error"⟩)
    | some b =>
      if b < amount then (s, ⟨400, "Saldo tidak cukup"⟩)
      else
        ({ s with
             users := updMap s.users uid (some (b - amount)),
             withdrawReqs := s.withdrawReqs ++ [⟨uid, amount, today, "pending"⟩] },
         ⟨200, "Withdraw menunggu approval"⟩)

/-- `POST /api/topup` of the server.js engine (lines 79-116): validate,
call the gateway, store a pending transaction document. -/
def topupFs2 (orderId uid : String) (amount : Int) (gatewayOk : Bool)
    (s : FsState) : FsState × HttpRes × Bool :=
  if uid = "" ∨ amount = 0 ∨ amount < 10000 then
    (s, ⟨400, "Invalid request"⟩, false)
  else if gatewayOk then
    ({ s with transactions := updMap s.transactions orderId (some ⟨uid, amount, "pending"⟩) },
     ⟨200, "topup created"⟩, true)
  else
    (s, ⟨500, "Internal server error"⟩, true)

/-- `POST /api/midtrans/webhook` of the server.js engine (lines 119-159):
verify signature, then on settlement/capture set the transaction status to
`"success"`, and on expire set it to `"expired"` — no balance is touched by
this handler.  `update` on a missing document throws, caught as 500. -/
def webhookFs2 (hash : String → String) (key : String) (n : Notif)
    (s : FsState) : FsState × HttpRes :=
  if n.signature_key ≠ hash (sigInput n key) then
    (s, ⟨403, "Invalid signature"⟩)
  else if n.transaction_status = "settlement" ∨ n.transaction_status = "capture" then
    match s.transactions n.order_id with
    | none => (s, ⟨500, "Webhook error"⟩)
    | some t =>
      let tr := updMap s.transactions n.order_id (some { t with status := "success" })
      ({ s with transactions := tr }, ⟨200, "Webhook processed"⟩)
  else if n.transaction_status = "expire" then
    match s.transactions n.order_id with
    | none => (s, ⟨500, "Webhook error"⟩)
    | some t =>
      let tr := updMap s.transactions n.order_id (some { t with status := "expired" })
      ({ s with transactions := tr }, ⟨200, "Webhook processed"⟩)
  else (s, ⟨200, "Webhook processed"⟩)

/-! ### Operation sequences -/

/-- One inbound state-mutating request to the in-memory engine. -/
inductive MemOp where
  | topup (orderId userId : String) (amount : Int) (gatewayOk : Bool)
  | webhook (n : Notif)
  | withdraw (today userId : String) (amount : Int)

/-- Apply one in-memory request to the state. -/
def memStep (hash : String → String) (key : String) (op : MemOp)
    (s : MemState) : MemState :=
  match op with
  | MemOp.topup oid uid amt ok => (topupMem oid uid amt ok s).1
  | MemOp.webhook n => (webhookMem hash key n s).1
  | MemOp.withdraw d u a => (withdrawMem d u a s).1

/-- Run a list of in-memory requests from a given state, first element first. -/
def runMemFrom (hash : String → String) (key : String) (s : MemState) :
    List MemOp → MemState
  | [] => s
  | op :: ops => runMemFrom hash key (memStep hash key op s) ops

/-- Run a list of in-memory requests from the empty initial state. -/
def runMem (hash : String → String) (key : String) (ops : List MemOp) : MemState :=
  runMemFrom hash key memInit ops

/-- One inbound state-mutating request to the part_000 Firestore engine. -/
inductive FsOp where
  | payment (orderId uid : String) (amount : Int) (gatewayOk : Bool)
  | callback (n : Notif)
  | withdraw (today uid : String) (amount : Int)

/-- Apply one part_000 request to the state. -/
def fsStep (hash : String → String) (key : String) (op : FsOp)
    (s : FsState) : FsState :=
  match op with
  | FsOp.payment oid uid amt ok => (paymentFs oid uid amt ok s).1
  | FsOp.callback n => (callbackFs hash key n s).1
  | FsOp.withdraw d u a => (withdrawFs d u a s).1

/-- Run a list of part_000 requests from a given state, first element first. -/
def runFsFrom (hash : String → String) (key : String) (s : FsState) :
    List FsOp → FsState
  | [] => s
  | op :: ops => runFsFrom hash key (fsStep hash key op s) ops

/-- Iterate the in-memory webhook on the same notification. -/
def iterWebhookMem (hash : String → String) (key : String) (n : Notif) :
    Nat → MemState → MemState
  | 0, s => s
  | Nat.succ k, s => iterWebhookMem hash key n k (webhookMem hash key n s).1

/-- Iterate the part_000 callback on the same notification. -/
def iterCallbackFs (hash : String → String) (key : String) (n : Notif) :
    Nat → FsState → FsState
  | 0, s => s
  | Nat.succ k, s => iterCallbackFs hash key n k (callbackFs hash key n s).1

/-- Sum of the amounts of the non-rejected withdrawal requests of `uid`
recorded for day `d`. -/
def sumDay (l : List WReq) (uid d : String) : Int :=
  (l.filter (fun w => w.uid = uid ∧ w.day = d ∧ w.status ≠ "rejected")).foldr
    (fun w acc => w.amount + acc) 0

/-! ### Invariants -/

@[simp]
lemma updMap_apply {α : Type} (f : String → α) (k : String) (v : α) (x : String) :
    updMap f k v x = if x = k then v else f x := rfl

/-- Ledger invariant of the in-memory engine: every stored integer balance is
non-negative, every pending order has a positive amount, and every recorded
daily withdrawal total is within the daily limit. -/
def MemInv (s : MemState) : Prop :=
  (∀ u m, s.balances u = JsBal.val m → 0 ≤ m) ∧
  (∀ oid o, s.pendingOrders oid = some o → 0 < o.amount) ∧
  (∀ u d, s.history u d ≤ DAILY_WITHDRAW_LIMIT)

lemma memInv_init : MemInv memInit := by
  refine ⟨?_, ?_, ?_⟩
  · intro u m h
    simp [memInit] at h
  · intro oid o h
    simp [memInit] at h
  · intro u d
    norm_num [memInit, DAILY_WITHDRAW_LIMIT]

lemma readBal_nonneg {s : MemState} (h : ∀ u m, s.balances u = JsBal.val m → 0 ≤ m)
    (u : String) : 0 ≤ readBal s u := by
  unfold readBal
  cases hb : s.balances u with
  | val m => exact h u m hb
  | missing => exact le_refl 0
  | nan => exact le_refl 0

lemma memInv_topup (oid uid : String) (amt : Int) (ok : Bool) {s : MemState}
    (h : MemInv s) : MemInv (topupMem oid uid amt ok s).1 := by
  obtain ⟨hb, hp, hh⟩ := h
  unfold topupMem
  split
  · exact ⟨hb, hp, hh⟩
  · next hcond =>
    split
    · refine ⟨hb, ?_, hh⟩
      intro o oo hoo
      simp only [updMap_apply] at hoo
      split at hoo
      · cases hoo
        push_neg at hcond
        have h3 := hcond.2.2
        simp only [MIN_TOPUP] at h3
        show (0 : Int) < amt
        omega
      · exact hp o oo hoo
    · exact ⟨hb, hp, hh⟩

lemma memInv_webhook (hash : String → String) (key : String) (n : Notif)
    {s : MemState} (h : MemInv s) : MemInv (webhookMem hash key n s).1 := by
  obtain ⟨hb, hp, hh⟩ := h
  unfold webhookMem
  split
  · exact ⟨hb, hp, hh⟩
  split
  · exact ⟨hb, hp, hh⟩
  split
  · next o heq =>
    split
    · refine ⟨?_, ?_, hh⟩
      · intro u m hm
        simp only [updMap_apply] at hm
        split at hm
        · cases hm
          have h1 : 0 ≤ readBal s o.userId := readBal_nonneg hb o.userId
          have h2 : 0 < o.amount := hp n.order_id o heq
          omega
        · exact hb u m hm
      · intro oid oo hoo
        simp only [updMap_apply] at hoo
        split at hoo
        · cases hoo
        · exact hp oid oo hoo
    · exact ⟨hb, hp, hh⟩
  · exact ⟨hb, hp, hh⟩

lemma memInv_withdraw (today uid : String) (amt : Int) {s : MemState}
    (h : MemInv s) : MemInv (withdrawMem today uid amt s).1 := by
  obtain ⟨hb, hp, hh⟩ := h
  unfold withdrawMem
  split
  · exact ⟨hb, hp, hh⟩
  split
  · exact ⟨hb, hp, hh⟩
  split
  · exact ⟨hb, hp, hh⟩
  split
  · exact ⟨hb, hp, hh⟩
  · next hins hlim =>
    refine ⟨?_, hp, ?_⟩
    · intro u m hm
      simp only [updMap_apply] at hm
      split at hm
      · cases hv : s.balances uid with
        | missing => rw [hv] at hm; simp [jsDebit] at hm
        | nan => rw [hv] at hm; simp [jsDebit] at hm
        | val m0 =>
          rw [hv] at hm
          simp only [jsDebit, JsBal.val.injEq] at hm
          have hbz : 0 ≤ m0 := hb uid m0 hv
          have hr : readBal s uid = m0 := by unfold readBal; rw [hv]
          push_neg at hins
          omega
      · exact hb u m hm
    · intro u d
      simp only
      split
      · push_neg at hlim
        exact hlim
      · exact hh u d

lemma memInv_step (hash : String → String) (key : String) (op : MemOp)
    {s : MemState} (h : MemInv s) : MemInv (memStep hash key op s) := by
  cases op with
  | topup oid uid amt ok => exact memInv_topup oid uid amt ok h
  | webhook n => exact memInv_webhook hash key n h
  | withdraw d u a => exact memInv_withdraw d u a h

lemma memInv_runFrom (hash : String → String) (key : String) (ops : List MemOp) :
    ∀ s : MemState, MemInv s → MemInv (runMemFrom hash key s ops) := by
  induction ops with
  | nil => intro s h; exact h
  | cons op ops ih =>
    intro s h
    exact ih _ (memInv_step hash key op h)

lemma memInv_run (hash : String → String) (key : String) (ops : List MemOp) :
    MemInv (runMem hash key ops) :=
  memInv_runFrom hash key ops memInit memInv_init

/-- Ledger invariant of the part_000 Firestore engine: every user balance is
non-negative and every stored transaction amount is positive. -/
def FsInv (s : FsState) : Prop :=
  (∀ u b, s.users u = some b → 0 ≤ b) ∧
  (∀ oid t, s.transactions oid = some t → 0 < t.amount)

lemma fsInv_payment (oid uid : String) (amt : Int) (ok : Bool) {s : FsState}
    (h : FsInv s) : FsInv (paymentFs oid uid amt ok s).1 := by
  obtain ⟨hu, ht⟩ := h
  unfold paymentFs
  split
  · exact ⟨hu, ht⟩
  · next hcond =>
    split
    · refine ⟨hu, ?_⟩
      intro o t hto
      simp only [updMap_apply] at hto
      split at hto
      · cases hto
        push_neg at hcond
        have h2 := hcond.2
        show (0 : Int) < amt
        omega
      · exact ht o t hto
    · exact ⟨hu, ht⟩

lemma fsInv_callback (hash : String → String) (key : String) (n : Notif)
    {s : FsState} (h : FsInv s) : FsInv (callbackFs hash key n s).1 := by
  obtain ⟨hu, ht⟩ := h
  unfold callbackFs
  split
  · exact ⟨hu, ht⟩
  split
  · exact ⟨hu, ht⟩
  · next t heq =>
    split
    · exact ⟨hu, ht⟩
    split
    · split
      · exact ⟨hu, ht⟩
      · next b hb =>
        refine ⟨?_, ?_⟩
        · intro u bb hbb
          simp only [updMap_apply] at hbb
          split at hbb
          · cases hbb
            have h1 : 0 ≤ b := hu t.uid b hb
            have h2 : 0 < t.amount := ht n.order_id t heq
            omega
          · exact hu u bb hbb
        · intro o tt htt
          simp only [updMap_apply] at htt
          split at htt
          · cases htt
            exact ht n.order_id t heq
          · exact ht o tt htt
    · exact ⟨hu, ht⟩

lemma fsInv_withdraw (today uid : String) (amt : Int) {s : FsState}
    (h : FsInv s) : FsInv (withdrawFs today uid amt s).1 := by
  obtain ⟨hu, ht⟩ := h
  unfold withdrawFs
  split
  · exact ⟨hu, ht⟩
  · next hcond =>
    split
    · exact ⟨hu, ht⟩
    · next b hb =>
      split
      · exact ⟨hu, ht⟩
      · next hins =>
        refine ⟨?_, ht⟩
        intro u bb hbb
        simp only [updMap_apply] at hbb
        split at hbb
        · cases hbb
          push_neg at hins
          omega
        · exact hu u bb hbb

lemma fsInv_step (hash : String → String) (key : String) (op : FsOp)
    {s : FsState} (h : FsInv s) : FsInv (fsStep hash key op s) := by
  cases op with
  | payment oid uid amt ok => exact fsInv_payment oid uid amt ok h
  | callback n => exact fsInv_callback hash key n h
  | withdraw d u a => exact fsInv_withdraw d u a h

lemma fsInv_runFrom (hash : String → String) (key : String) (ops : List FsOp) :
    ∀ s : FsState, FsInv s → FsInv (runFsFrom hash key s ops) := by
  induction ops with
  | nil => intro s h; exact h
  | cons op ops ih =>
    intro s h
    exact ih _ (fsInv_step hash key op h)

/-! ### Handler-level helper lemmas -/

lemma webhookMem_already (hash : String → String) (key : String) (n : Notif)
    (s : MemState) (hsig : n.signature_key = hash (sigInput n key))
    (hp : s.processedOrders n.order_id = true) :
    webhookMem hash key n s = (s, ⟨200, "Already processed"⟩) := by
  simp [webhookMem, hsig, hp]

lemma webhookMem_settle (hash : String → String) (key : String) (n : Notif)
    (s : MemState) (o : Order)
    (hsig : n.signature_key = hash (sigInput n key))
    (hproc : s.processedOrders n.order_id = false)
    (hpend : s.pendingOrders n.order_id = some o)
    (hts : n.transaction_status = "settlement") :
    webhookMem hash key n s =
      ({ balances := updMap s.balances o.userId (JsBal.val (readBal s o.userId + o.amount)),
         pendingOrders := updMap s.pendingOrders n.order_id none,
         processedOrders := updMap s.processedOrders n.order_id true,
         history := s.history }, ⟨200, "Webhook processed"⟩) := by
  simp [webhookMem, hsig, hproc, hpend, hts]

lemma iterWebhookMem_fix (hash : String → String) (key : String) (n : Notif)
    (s : MemState) (hfix : (webhookMem hash key n s).1 = s) :
    ∀ m, iterWebhookMem hash key n m s = s := by
  intro m
  induction m with
  | zero => rfl
  | succ k ih =>
    show iterWebhookMem hash key n k (webhookMem hash key n s).1 = s
    rw [hfix]
    exact ih

lemma callbackFs_success (hash : String → String) (key : String) (n : Notif)
    (s : FsState) (t : Trx)
    (hsig : n.signature_key = hash (sigInput n key))
    (htrx : s.transactions n.order_id = some t)
    (hst : t.status = "success") :
    callbackFs hash key n s = (s, ⟨200, "OK"⟩) := by
  simp [callbackFs, hsig, htrx, hst]

lemma callbackFs_settle (hash : String → String) (key : String) (n : Notif)
    (s : FsState) (t : Trx) (b : Int)
    (hsig : n.signature_key = hash (sigInput n key))
    (htrx : s.transactions n.order_id = some t)
    (hst : t.status ≠ "success")
    (hts : n.transaction_status = "settlement")
    (huser : s.users t.uid = some b) :
    callbackFs hash key n s =
      ({ s with users := updMap s.users t.uid (some (b + t.amount)),
                transactions := updMap s.transactions n.order_id
                  (some { t with status := "success" }) },
       ⟨200, "OK"⟩) := by
  simp [callbackFs, hsig, htrx, hst, hts, huser]

lemma iterCallbackFs_fix (hash : String → String) (key : String) (n : Notif)
    (s : FsState) (hfix : (callbackFs hash key n s).1 = s) :
    ∀ m, iterCallbackFs hash key n m s = s := by
  intro m
  induction m with
  | zero => rfl
  | succ k ih =>
    show iterCallbackFs hash key n k (callbackFs hash key n s).1 = s
    rw [hfix]
    exact ih

/-! ### Witness fixtures -/

/-- A fixed test digest function standing for the abstract sha512 hex hash. -/
def hashK : String → String := fun _ => "h"

/-- Empty Firestore state. -/
def fsInit : FsState := ⟨fun _ => none, fun _ => none, []⟩

/-! ### Claims -/

/-- C5: for every inbound notification whose `signature_key` differs from
the keyed digest of `order_id ++ status_code ++ gross_amount ++ secret`,
each of the three notification handlers (in-memory webhook, part_000
callback, server.js webhook) answers 403 and leaves its state untouched.
Stated for an arbitrary digest function, hence in particular for sha512. -/
theorem C5_signature_rejection (hash : String → String) (key : String)
    (n : Notif) (s : MemState) (sf s2 : FsState)
    (h : n.signature_key ≠ hash (sigInput n key)) :
    webhookMem hash key n s = (s, ⟨403, "Invalid signature"⟩) ∧
    callbackFs hash key n sf = (sf, ⟨403, "Invalid Signature"⟩) ∧
    webhookFs2 hash key n s2 = (s2, ⟨403, "Invalid signature"⟩) := by
  refine ⟨?_, ?_, ?_⟩ <;> simp [webhookMem, callbackFs, webhookFs2, h]

/-- Witness for C5 at a concrete forged notification. -/
theorem C5_signature_rejection_witness :
    (Notif.mk "O1" "200" "99999" "forged" "settlement").signature_key ≠
      hashK (sigInput (Notif.mk "O1" "200" "99999" "forged" "settlement") "k") ∧
    (webhookMem hashK "k" (Notif.mk "O1" "200" "99999" "forged" "settlement") memInit =
       (memInit, ⟨403, "Invalid signature"⟩) ∧
     callbackFs hashK "k" (Notif.mk "O1" "200" "99999" "forged" "settlement") fsInit =
       (fsInit, ⟨403, "Invalid Signature"⟩) ∧
     webhookFs2 hashK "k" (Notif.mk "O1" "200" "99999" "forged" "settlement") fsInit =
       (fsInit, ⟨403, "Invalid signature"⟩)) :=
  ⟨by decide,
   C5_signature_rejection hashK "k" _ memInit fsInit fsInit (by decide)⟩

/-- C7: a correctly signed notification whose `order_id` matches no stored
order (neither pending nor already processed in the in-memory engine; no
transaction document in the part_000 engine) is acknowledged with success
and the state is returned unchanged, whatever the transaction status. -/
theorem C7_unknown_order (hash : String → String) (key : String) (n : Notif)
    (s : MemState) (sf : FsState)
    (hsig : n.signature_key = hash (sigInput n key))
    (hpend : s.pendingOrders n.order_id = none)
    (hproc : s.processedOrders n.order_id = false)
    (hfs : sf.transactions n.order_id = none) :
    webhookMem hash key n s = (s, ⟨200, "Webhook processed"⟩) ∧
    callbackFs hash key n sf = (sf, ⟨200, "OK"⟩) := by
  constructor
  · simp [webhookMem, hsig, hproc, hpend]
  · simp [callbackFs, hsig, hfs]

/-- Witness for C7 at a concrete well-signed notification for an absent order. -/
theorem C7_unknown_order_witness :
    (Notif.mk "GHOST" "200" "50000" "h" "settlement").signature_key =
      hashK (sigInput (Notif.mk "GHOST" "200" "50000" "h" "settlement") "k") ∧
    (webhookMem hashK "k" (Notif.mk "GHOST" "200" "50000" "h" "settlement") memInit =
       (memInit, ⟨200, "Webhook processed"⟩) ∧
     callbackFs hashK "k" (Notif.mk "GHOST" "200" "50000" "h" "settlement") fsInit =
       (fsInit, ⟨200, "OK"⟩)) :=
  ⟨by decide,
   C7_unknown_order hashK "k" _ memInit fsInit (by decide) rfl rfl rfl⟩

/-- C9: a top-up request with amount strictly below `MIN_TOPUP` is rejected
with status 400 before the Order Creation Service is called (the Boolean
component of the result records whether `snap.createTransaction` ran) and
no pending order is stored, on both top-up handlers (part_001 in-memory and
server.js). -/
theorem C9_min_topup (oid uid : String) (amt : Int) (ok : Bool)
    (s : MemState) (s2 : FsState) (h : amt < MIN_TOPUP) :
    topupMem oid uid amt ok s = (s, ⟨400, "Invalid request"⟩, false) ∧
    topupFs2 oid uid amt ok s2 = (s2, ⟨400, "Invalid request"⟩, false) := by
  constructor
  · unfold topupMem
    rw [if_pos (Or.inr (Or.inr h))]
  · unfold topupFs2
    have h10 : amt < 10000 := by simpa [MIN_TOPUP] using h
    rw [if_pos (Or.inr (Or.inr h10))]

/-- Witness for C9 at amount `MIN_TOPUP - 1 = 9999`. -/
theorem C9_min_topup_witness :
    (9999 : Int) < MIN_TOPUP ∧
    (topupMem "O1" "u" 9999 true memInit = (memInit, ⟨400, "Invalid request"⟩, false) ∧
     topupFs2 "O1" "u" 9999 true fsInit = (fsInit, ⟨400, "Invalid request"⟩, false)) :=
  ⟨by decide, C9_min_topup "O1" "u" 9999 true memInit fsInit (by decide)⟩

/-- C10: the balance query always answers 200 with `balances[userId] || 0`,
mutates nothing, and a user whose balance key was never created reads 0. -/
theorem C10_balance_query (u : String) (s : MemState) :
    getBalanceMem u s = (s, 200, readBal s u) ∧
    (s.balances u = JsBal.missing → readBal s u = 0) := by
  refine ⟨rfl, ?_⟩
  intro h
  unfold readBal
  rw [h]

/-- Witness for C10 on the empty state. -/
theorem C10_balance_query_witness :
    readBal memInit "alice" = 0 ∧
    getBalanceMem "alice" memInit = (memInit, 200, readBal memInit "alice") :=
  ⟨(C10_balance_query "alice" memInit).2 rfl, (C10_balance_query "alice" memInit).1⟩

/-- C1: for a genuine settlement notification (valid signature, settlement
status, order pending and not yet processed / transaction not yet
successful), the first delivery credits the order amount to the owning
user exactly once and installs the settlement marker, and every further
delivery of the identical notification leaves the state fixed and still
answers success — so N ≥ 1 sequential deliveries have the effect of one.
Stated for both the in-memory webhook and the part_000 callback. -/
theorem C1_idempotent_settlement (hash : String → String) (key : String)
    (n : Notif) (s s1 : MemState) (o : Order) (sf f1 : FsState) (t : Trx) (b : Int)
    (hsig : n.signature_key = hash (sigInput n key))
    (hts : n.transaction_status = "settlement")
    (hpend : s.pendingOrders n.order_id = some o)
    (hproc : s.processedOrders n.order_id = false)
    (hs1 : s1 = (webhookMem hash key n s).1)
    (htrx : sf.transactions n.order_id = some t)
    (htst : t.status ≠ "success")
    (huser : sf.users t.uid = some b)
    (hf1 : f1 = (callbackFs hash key n sf).1) :
    (readBal s1 o.userId = readBal s o.userId + o.amount ∧
     s1.processedOrders n.order_id = true ∧
     s1.pendingOrders n.order_id = none ∧
     (webhookMem hash key n s).2 = ⟨200, "Webhook processed"⟩ ∧
     webhookMem hash key n s1 = (s1, ⟨200, "Already processed"⟩) ∧
     (∀ N, 1 ≤ N → iterWebhookMem hash key n N s = s1)) ∧
    (f1.users t.uid = some (b + t.amount) ∧
     f1.transactions n.order_id = some { t with status := "success" } ∧
     (callbackFs hash key n sf).2 = ⟨200, "OK"⟩ ∧
     callbackFs hash key n f1 = (f1, ⟨200, "OK"⟩) ∧
     (∀ N, 1 ≤ N → iterCallbackFs hash key n N sf = f1)) := by
  have hw := webhookMem_settle hash key n s o hsig hproc hpend hts
  have hc := callbackFs_settle hash key n sf t b hsig htrx htst hts huser
  have hs1v : s1 =
      { balances := updMap s.balances o.userId (JsBal.val (readBal s o.userId + o.amount)),
        pendingOrders := updMap s.pendingOrders n.order_id none,
        processedOrders := updMap s.processedOrders n.order_id true,
        history := s.history } := by rw [hs1, hw]
  have hf1v : f1 =
      { sf with users := updMap sf.users t.uid (some (b + t.amount)),
                transactions := updMap sf.transactions n.order_id
                  (some { t with status := "success" }) } := by rw [hf1, hc]
  have hproc1 : s1.processedOrders n.order_id = true := by
    rw [hs1v]; simp
  have halready : webhookMem hash key n s1 = (s1, ⟨200, "Already processed"⟩) :=
    webhookMem_already hash key n s1 hsig hproc1
  have hsucc1 : f1.transactions n.order_id = some { t with status := "success" } := by
    rw [hf1v]; simp
  have hok : callbackFs hash key n f1 = (f1, ⟨200, "OK"⟩) :=
    callbackFs_success hash key n f1 { t with status := "success" } hsig hsucc1 rfl
  constructor
  · refine ⟨?_, hproc1, ?_, ?_, halready, ?_⟩
    · rw [hs1v]
      simp [readBal]
    · rw [hs1v]; simp
    · rw [hw]
    · intro N hN
      obtain ⟨m, rfl⟩ : ∃ m, N = m + 1 := ⟨N - 1, by omega⟩
      show iterWebhookMem hash key n m (webhookMem hash key n s).1 = s1
      rw [← hs1]
      exact iterWebhookMem_fix hash key n s1 (by rw [halready]) m
  · refine ⟨?_, hsucc1, ?_, hok, ?_⟩
    · rw [hf1v]; simp
    · rw [hc]
    · intro N hN
      obtain ⟨m, rfl⟩ : ∃ m, N = m + 1 := ⟨N - 1, by omega⟩
      show iterCallbackFs hash key n m (callbackFs hash key n sf).1 = f1
      rw [← hf1]
      exact iterCallbackFs_fix hash key n f1 (by rw [hok]) m

/-- Concrete settlement notification for the C1 witness (digest `hashK`). -/
def nSettle50k : Notif := ⟨"O1", "200", "50000", "h", "settlement"⟩

/-- In-memory state with one pending order for the C1 witness. -/
def memPending50k : MemState :=
  { memInit with pendingOrders := updMap memInit.pendingOrders "O1" (some ⟨"u", 50000⟩) }

/-- Firestore state with one pending transaction and a zero-balance user. -/
def fsPending50k : FsState :=
  { fsInit with transactions := updMap fsInit.transactions "O1" (some ⟨"u", 50000, "pending"⟩),
                users := updMap fsInit.users "u" (some 0) }

/-- Witness for C1: three deliveries of the same settlement notification
have the effect of one, on both engines, at a concrete order. -/
theorem C1_idempotent_settlement_witness :
    readBal (webhookMem hashK "k" nSettle50k memPending50k).1 "u" = readBal memPending50k "u" + 50000 ∧
    iterWebhookMem hashK "k" nSettle50k 3 memPending50k = (webhookMem hashK "k" nSettle50k memPending50k).1 ∧
    (callbackFs hashK "k" nSettle50k fsPending50k).1.users "u" = some (0 + 50000) ∧
    iterCallbackFs hashK "k" nSettle50k 3 fsPending50k = (callbackFs hashK "k" nSettle50k fsPending50k).1 := by
  have h := C1_idempotent_settlement hashK "k" nSettle50k memPending50k _ ⟨"u", 50000⟩
    fsPending50k _ ⟨"u", 50000, "pending"⟩ 0 (by decide) rfl rfl rfl rfl rfl (by decide) rfl rfl
  exact ⟨h.1.1, h.1.2.2.2.2.2 3 (by decide), h.2.1, h.2.2.2.2.2 3 (by decide)⟩

/-- State for the C2 evaluation: a pending 50000 transaction for user `u`
whose balance document holds 0, as left by the server.js top-up handler. -/
def c2State : FsState :=
  { fsInit with transactions := updMap fsInit.transactions "O1" (some ⟨"u", 50000, "pending"⟩),
                users := updMap fsInit.users "u" (some 0) }

/-- C2 evaluation: on the server.js webhook, a well-signed settlement
notification for a known pending order marks the transaction `"success"`
(the settled marker) while the balance of the owning user stays 0 — the credit
and the settled marking do not happen together on this path. -/
theorem C2_settled_without_credit :
    (webhookFs2 hashK "k" nSettle50k c2State).1.transactions "O1" =
      some ⟨"u", 50000, "success"⟩ ∧
    (webhookFs2 hashK "k" nSettle50k c2State).1.users "u" = some 0 ∧
    (webhookFs2 hashK "k" nSettle50k c2State).2 = ⟨200, "Webhook processed"⟩ := by
  decide

/-- State for the C6 evaluation: user `u` holds a settled balance of 10000. -/
def c6State : MemState :=
  { memInit with balances := updMap memInit.balances "u" (JsBal.val 10000) }

/-- C6 evaluation: the in-memory withdraw handler accepts a strictly
negative amount (-5000 passes `!amount` and every subsequent check),
answers success, credits the balance from 10000 to 15000 and records a
negative daily total — instead of rejecting with InvalidAmount. -/
theorem C6_negative_withdraw_accepted :
    (withdrawMem "2024-01-01" "u" (-5000) c6State).2 =
      ⟨200, "Withdraw success (simulation)"⟩ ∧
    readBal (withdrawMem "2024-01-01" "u" (-5000) c6State).1 "u" = 15000 ∧
    (withdrawMem "2024-01-01" "u" (-5000) c6State).1.history "u" "2024-01-01" = -5000 := by
  decide

/-- C3: balance non-negativity.  In the in-memory engine, every state
reachable by any sequence of top-ups, webhook settlements and withdrawals
from the initial state has every observable balance ≥ 0, and a withdrawal
whose amount exceeds the current balance (and passes the request-validity
and max-withdraw checks that precede the sufficiency check in the source)
fails with the InsufficientFunds rejection and leaves the state unchanged.
In the part_000 engine, every operation preserves non-negativity of all
balances, and an insufficient withdrawal fails likewise without mutation. -/
theorem C3_balance_nonneg :
    (∀ (hash : String → String) (key : String) (ops : List MemOp) (u : String),
       0 ≤ readBal (runMem hash key ops) u) ∧
    (∀ (today u : String) (amt : Int) (s : MemState),
       ¬(u = "" ∨ amt = 0) → amt ≤ MAX_WITHDRAW → readBal s u < amt →
       withdrawMem today u amt s = (s, ⟨400, "Insufficient balance"⟩)) ∧
    (∀ (hash : String → String) (key : String) (s : FsState) (ops : List FsOp),
       FsInv s → FsInv (runFsFrom hash key s ops)) ∧
    (∀ (today uid : String) (amt : Int) (s : FsState) (b : Int),
       0 < amt → s.users uid = some b → b < amt →
       withdrawFs today uid amt s = (s, ⟨400, "Saldo tidak cukup"⟩)) := by
  refine ⟨?_, ?_, ?_, ?_⟩
  · intro hash key ops u
    exact readBal_nonneg (memInv_run hash key ops).1 u
  · intro today u amt s h1 h2 h3
    unfold withdrawMem
    rw [if_neg h1, if_neg (not_lt.mpr h2), if_pos h3]
  · intro hash key s ops hinv
    exact fsInv_runFrom hash key ops s hinv
  · intro today uid amt s b hpos huser hlt
    have hcond : ¬(amt = 0 ∨ amt ≤ 0) := by push_neg; omega
    simp [withdrawFs, hcond, huser, hlt]

/-- Firestore state with a small balance for the C3 witness. -/
def c3Fs : FsState := { fsInit with users := updMap fsInit.users "u" (some 3) }

/-- Witness for C3 at concrete operation sequences and requests. -/
theorem C3_balance_nonneg_witness :
    0 ≤ readBal (runMem hashK "k"
      [MemOp.topup "O1" "u" 50000 true, MemOp.webhook nSettle50k,
       MemOp.withdraw "2024-01-01" "u" 20000]) "u" ∧
    (¬("u" = "" ∨ (5 : Int) = 0) ∧ (5 : Int) ≤ MAX_WITHDRAW ∧ readBal memInit "u" < 5 ∧
     withdrawMem "2024-01-01" "u" 5 memInit = (memInit, ⟨400, "Insufficient balance"⟩)) ∧
    FsInv (runFsFrom hashK "k" fsInit [FsOp.withdraw "2024-01-01" "u" 5]) ∧
    ((0 : Int) < 5 ∧ c3Fs.users "u" = some 3 ∧ (3 : Int) < 5 ∧
     withdrawFs "2024-01-01" "u" 5 c3Fs = (c3Fs, ⟨400, "Saldo tidak cukup"⟩)) := by
  have hfs : FsInv fsInit := by
    constructor
    · intro u b h
      simp [fsInit] at h
    · intro o t h
      simp [fsInit] at h
  refine ⟨C3_balance_nonneg.1 hashK "k" _ "u",
          ⟨by decide, by decide, by decide,
           C3_balance_nonneg.2.1 "2024-01-01" "u" 5 memInit (by decide) (by decide) (by decide)⟩,
          C3_balance_nonneg.2.2.1 hashK "k" fsInit _ hfs,
          ⟨by decide, rfl, by decide,
           C3_balance_nonneg.2.2.2 "2024-01-01" "u" 5 c3Fs 3 (by decide) rfl (by decide)⟩⟩

/-- Counterexample for C4: the part_000 withdraw handler (a cited source of
the claim) enforces no daily limit — with balance 30,000,000, two
15,000,000 withdrawals on the same day both succeed, and the non-rejected
withdrawal records of that day sum to 30,000,000 > `DAILY_WITHDRAW_LIMIT`. -/
def c4State : FsState := { fsInit with users := updMap fsInit.users "u" (some 30000000) }

/-- C4 counterexample: the daily-cap invariant fails on the part_000 path. -/
theorem C4_daily_limit_counterexample :
    (withdrawFs "2024-01-01" "u" 15000000 c4State).2.status = 200 ∧
    (withdrawFs "2024-01-01" "u" 15000000
       (withdrawFs "2024-01-01" "u" 15000000 c4State).1).2.status = 200 ∧
    sumDay (withdrawFs "2024-01-01" "u" 15000000
       (withdrawFs "2024-01-01" "u" 15000000 c4State).1).1.withdrawReqs
       "u" "2024-01-01" = 30000000 ∧
    DAILY_WITHDRAW_LIMIT < (30000000 : Int) := by
  decide

/-- C4 as amended: on the in-memory withdrawal path the invariant holds —
in every reachable state the recorded daily withdrawal total of every user
and day is at most `DAILY_WITHDRAW_LIMIT`, and a request that passes the
validity, max-withdraw and sufficiency checks but would push the daily
total over the limit is rejected with DailyLimitExceeded, unchanged state. -/
theorem C4_daily_limit_mem :
    (∀ (hash : String → String) (key : String) (ops : List MemOp) (u d : String),
       (runMem hash key ops).history u d ≤ DAILY_WITHDRAW_LIMIT) ∧
    (∀ (today u : String) (amt : Int) (s : MemState),
       ¬(u = "" ∨ amt = 0) → amt ≤ MAX_WITHDRAW → ¬(readBal s u < amt) →
       DAILY_WITHDRAW_LIMIT < s.history u today + amt →
       withdrawMem today u amt s = (s, ⟨400, "Daily limit exceeded"⟩)) := by
  constructor
  · intro hash key ops u d
    exact (memInv_run hash key ops).2.2 u d
  · intro today u amt s h1 h2 h3 h4
    unfold withdrawMem
    rw [if_neg h1, if_neg (not_lt.mpr h2), if_neg h3, if_pos h4]

/-- In-memory state with a large settled balance for the C4 witness. -/
def c4Mem : MemState :=
  { memInit with balances := updMap memInit.balances "u" (JsBal.val 30000000) }

/-- The same state with 15,000,000 already withdrawn today. -/
def c4MemH : MemState :=
  { c4Mem with history := fun x y => if x = "u" ∧ y = "2024-01-01" then 15000000 else 0 }

/-- Witness for C4 as amended, at a concrete run and a concrete
over-the-cap request. -/
theorem C4_daily_limit_mem_witness :
    (runMem hashK "k" [MemOp.withdraw "2024-01-01" "u" 5]).history "u" "2024-01-01" ≤
      DAILY_WITHDRAW_LIMIT ∧
    (¬("u" = "" ∨ (10000000 : Int) = 0) ∧ (10000000 : Int) ≤ MAX_WITHDRAW ∧
     ¬(readBal c4MemH "u" < (10000000 : Int)) ∧
     DAILY_WITHDRAW_LIMIT < c4MemH.history "u" "2024-01-01" + (10000000 : Int) ∧
     withdrawMem "2024-01-01" "u" 10000000 c4MemH =
       (c4MemH, ⟨400, "Daily limit exceeded"⟩)) :=
  ⟨C4_daily_limit_mem.1 hashK "k" _ "u" "2024-01-01",
   by decide, by decide, by decide, by decide,
   C4_daily_limit_mem.2 "2024-01-01" "u" 10000000 c4MemH
     (by decide) (by decide) (by decide) (by decide)⟩

/-- Settlement notification for order `RT1` (digest `hashK`). -/
def c8n1 : Notif := ⟨"RT1", "200", "50000", "h", "settlement"⟩

/-- Expire notification for the same order `RT1`. -/
def c8n2 : Notif := ⟨"RT1", "202", "50000", "h", "expire"⟩

/-- Firestore state with a zero-balance user for the C8 counterexample. -/
def c8Fs : FsState := { fsInit with users := updMap fsInit.users "u" (some 0) }

/-- C8 counterexample: the round trip run through the server.js handlers
(a cited source of the claim) does not credit the balance — after a top-up
of 50000 and a valid settlement notification the balance of the user is still 0,
and the subsequent expire notification is not a no-op either: it overwrites
the settled status with `"expired"`. -/
theorem C8_roundtrip_counterexample :
    (webhookFs2 hashK "k" c8n1 (topupFs2 "RT1" "u" 50000 true c8Fs).1).1.users "u" =
      some 0 ∧
    (webhookFs2 hashK "k" c8n1 (topupFs2 "RT1" "u" 50000 true c8Fs).1).1.transactions
      "RT1" = some ⟨"u", 50000, "success"⟩ ∧
    (webhookFs2 hashK "k" c8n2
       (webhookFs2 hashK "k" c8n1
         (topupFs2 "RT1" "u" 50000 true c8Fs).1).1).1.transactions "RT1" =
      some ⟨"u", 50000, "expired"⟩ := by
  decide

/-- C8 as amended: on the in-memory engine, creating a top-up order of
50000 and delivering a valid settlement notification for it credits the
user exactly 50000 and settles the order (marker installed, pending entry
removed, success answered), and a subsequent expire notification for the
same order is a pure no-op answered with success. -/
theorem C8_roundtrip_mem (hash : String → String) (key : String)
    (s s1 s2 : MemState) (uid oid : String) (n1 n2 : Notif)
    (huid : uid ≠ "")
    (hproc : s.processedOrders oid = false)
    (hs1 : s1 = (topupMem oid uid 50000 true s).1)
    (hn1 : n1.order_id = oid)
    (hsig1 : n1.signature_key = hash (sigInput n1 key))
    (hts1 : n1.transaction_status = "settlement")
    (hs2 : s2 = (webhookMem hash key n1 s1).1)
    (hn2 : n2.order_id = oid)
    (hsig2 : n2.signature_key = hash (sigInput n2 key))
    (_hts2 : n2.transaction_status = "expire") :
    readBal s2 uid = readBal s uid + 50000 ∧
    s2.processedOrders oid = true ∧
    s2.pendingOrders oid = none ∧
    (webhookMem hash key n1 s1).2 = ⟨200, "Webhook processed"⟩ ∧
    webhookMem hash key n2 s2 = (s2, ⟨200, "Already processed"⟩) := by
  have hcond : ¬(uid = "" ∨ (50000 : Int) = 0 ∨ (50000 : Int) < MIN_TOPUP) := by
    push_neg
    exact ⟨huid, by decide, by decide⟩
  have hs1v : s1 = { s with pendingOrders := updMap s.pendingOrders oid (some ⟨uid, 50000⟩) } := by
    rw [hs1]
    unfold topupMem
    rw [if_neg hcond]
    rfl
  have hpend1 : s1.pendingOrders n1.order_id = some ⟨uid, 50000⟩ := by
    rw [hs1v, hn1]
    simp
  have hproc1 : s1.processedOrders n1.order_id = false := by
    rw [hs1v, hn1]
    exact hproc
  have hw := webhookMem_settle hash key n1 s1 ⟨uid, 50000⟩ hsig1 hproc1 hpend1 hts1
  have hbal1 : s1.balances = s.balances := by
    rw [hs1v]
  have hs2v : s2 =
      { balances := updMap s1.balances uid (JsBal.val (readBal s1 uid + 50000)),
        pendingOrders := updMap s1.pendingOrders n1.order_id none,
        processedOrders := updMap s1.processedOrders n1.order_id true,
        history := s1.history } := by
    rw [hs2, hw]
  have hproc2 : s2.processedOrders oid = true := by
    rw [hs2v, hn1]
    simp
  refine ⟨?_, hproc2, ?_, ?_, ?_⟩
  · rw [hs2v]
    simp [readBal, hbal1]
  · rw [hs2v, hn1]
    simp
  · rw [hw]
  · exact webhookMem_already hash key n2 s2 hsig2 (by rw [hn2]; exact hproc2)

/-- Witness for C8 as amended: the concrete round trip on the in-memory
engine from the empty state. -/
theorem C8_roundtrip_mem_witness :
    readBal (webhookMem hashK "k" c8n1 (topupMem "RT1" "u" 50000 true memInit).1).1 "u" =
      readBal memInit "u" + 50000 ∧
    (webhookMem hashK "k" c8n1 (topupMem "RT1" "u" 50000 true memInit).1).1.processedOrders
      "RT1" = true ∧
    (webhookMem hashK "k" c8n1 (topupMem "RT1" "u" 50000 true memInit).1).1.pendingOrders
      "RT1" = none ∧
    (webhookMem hashK "k" c8n1 (topupMem "RT1" "u" 50000 true memInit).1).2 =
      ⟨200, "Webhook processed"⟩ ∧
    webhookMem hashK "k" c8n2
      (webhookMem hashK "k" c8n1 (topupMem "RT1" "u" 50000 true memInit).1).1 =
      ((webhookMem hashK "k" c8n1 (topupMem "RT1" "u" 50000 true memInit).1).1,
       ⟨200, "Already processed"⟩) :=
  C8_roundtrip_mem hashK "k" memInit _ _ "u" "RT1" c8n1 c8n2
    (by decide) rfl rfl rfl rfl rfl rfl rfl rfl rfl

end TopupLedger
